import Mathlib

/-!
Verification of the calculator engine in `app.js` (class `Calculator`).

The engine is a four-field state machine (`currentInput`, `operator`,
`previousInput`, `shouldResetDisplay`) mutated by the operations
`appendNumber`, `appendOperator`, `calculate`, `clear` and `deleteLast`.
Each operation is embedded here as a total function on an explicit state
record.  JavaScript numbers are modelled by exact rational values
(`JSNum`, an integer numerator over a positive integer denominator, kept
unnormalized so that every arithmetic step is kernel-computable); the
`Number.EPSILON` compensation term and the `Math.round` rounding step of
`calculate` are carried over literally on these exact values.  Strings
are Lean strings, manipulated through their character lists.
-/

namespace WebCalc

/-- Exact rational model of a JavaScript number value: `num / den`.
Every value built by the embedding has a positive denominator.  The
representation is kept unnormalized (no gcd reduction) so that all
operations reduce in the kernel. -/
structure JSNum where
  num : ℤ
  den : ℤ
deriving DecidableEq

/-- Rational value denoted by a `JSNum`. -/
def JSNum.val (a : JSNum) : ℚ := (a.num : ℚ) / (a.den : ℚ)

/-- `a + b` on exact values. -/
def JSNum.add (a b : JSNum) : JSNum := ⟨a.num * b.den + b.num * a.den, a.den * b.den⟩

/-- `a - b` on exact values. -/
def JSNum.sub (a b : JSNum) : JSNum := ⟨a.num * b.den - b.num * a.den, a.den * b.den⟩

/-- `a * b` on exact values. -/
def JSNum.mul (a b : JSNum) : JSNum := ⟨a.num * b.num, a.den * b.den⟩

/-- `a / b` on exact values; the sign of `b` is folded into the numerator
so that the denominator stays positive.  Only reached when `b` is nonzero
(the engine guards division by zero). -/
def JSNum.div (a b : JSNum) : JSNum :=
  if b.num < 0 then ⟨-(a.num * b.den), a.den * (-b.num)⟩
  else ⟨a.num * b.den, a.den * b.num⟩

/-- Floor of the exact value (denominator positive in every use). -/
def JSNum.floor (a : JSNum) : ℤ := Int.fdiv a.num a.den

theorem JSNum.val_add (a b : JSNum) (ha : (a.den : ℚ) ≠ 0) (hb : (b.den : ℚ) ≠ 0) :
    (JSNum.add a b).val = a.val + b.val := by
  simp only [val, add]
  push_cast
  field_simp

theorem JSNum.val_sub (a b : JSNum) (ha : (a.den : ℚ) ≠ 0) (hb : (b.den : ℚ) ≠ 0) :
    (JSNum.sub a b).val = a.val - b.val := by
  simp only [val, sub]
  push_cast
  field_simp
  ring

theorem JSNum.val_mul (a b : JSNum) : (JSNum.mul a b).val = a.val * b.val := by
  simp only [val, mul]
  push_cast
  rw [div_mul_div_comm]

theorem JSNum.val_div (a b : JSNum) (hb : (b.num : ℚ) ≠ 0) :
    (JSNum.div a b).val = a.val / b.val := by
  rcases eq_or_ne (a.den : ℚ) 0 with h0 | h0
  · simp only [val, div]
    split <;> push_cast <;> simp [h0]
  · simp only [val, div]
    split
    · push_cast
      rw [div_div_eq_mul_div, div_mul_eq_mul_div]
      field_simp
    · push_cast
      rw [div_div_eq_mul_div, div_mul_eq_mul_div]
      field_simp

/-- `Number.EPSILON`, the double machine epsilon `2 ^ (-52)`, as an exact
rational. -/
def jsEpsilon : JSNum := ⟨1, 2 ^ 52⟩

/-- ECMAScript `Math.round`: the integer closest to the argument, ties
rounding toward positive infinity, i.e. `⌊x + 1/2⌋` on the exact value. -/
def mathRound (x : JSNum) : ℤ := JSNum.floor (JSNum.add x ⟨1, 2⟩)

/-- The rounding step of `calculate`:
`Math.round((result + Number.EPSILON) * 100000000) / 100000000`. -/
def roundResult (r : JSNum) : JSNum :=
  JSNum.div ⟨mathRound (JSNum.mul (JSNum.add r jsEpsilon) ⟨100000000, 1⟩), 1⟩ ⟨100000000, 1⟩

/-- Numeric value of a decimal digit character, `none` otherwise. -/
def digitVal (c : Char) : Option ℕ :=
  if '0' ≤ c ∧ c ≤ '9' then some (c.toNat - 48) else none

/-- Longest digit run at the head of the character list, as digit values,
together with the rest of the list. -/
def takeDigits : List Char → List ℕ × List Char
  | [] => ([], [])
  | c :: cs =>
    match digitVal c with
    | some d =>
      let r := takeDigits cs
      (d :: r.1, r.2)
    | none => ([], c :: cs)

/-- Value of a digit list read in base 10. -/
def digitsToNat (ds : List ℕ) : ℕ := ds.foldl (fun a d => 10 * a + d) 0

/-- Exponent part of `parseFloat`, after the `e`/`E` marker: an optional
sign and a digit run.  Returns (negative?, magnitude); an empty digit run
contributes exponent zero, matching JS (the marker is then not part of
the parsed prefix, which does not change the value). -/
def parseExponent (cs : List Char) : Bool × ℕ :=
  let eneg : Bool := match cs with
    | '-' :: _ => true
    | _ => false
  let cs1 : List Char := match cs with
    | '-' :: rest => rest
    | '+' :: rest => rest
    | _ => cs
  let ds := (takeDigits cs1).1
  if ds = [] then (false, 0) else (eneg, digitsToNat ds)

/-- Model of JavaScript `parseFloat`: skip leading whitespace, read an
optional sign, then the longest prefix matching
`digits [. digits] [(e|E) [sign] digits]`; `none` models `NaN` (no digit
found before the dot or after it).  The full Unicode whitespace set of the
JS spec is abbreviated to the common ASCII whitespace characters, and the
`Infinity` literal (not representable as a rational and not producible by
the engine) is not modelled. -/
def parseFloat (s : String) : Option JSNum :=
  let cs := s.data.dropWhile (fun c => c = ' ' ∨ c = '\t' ∨ c = '\n' ∨ c = '\r')
  let signNeg : Bool := match cs with
    | '-' :: _ => true
    | _ => false
  let cs1 : List Char := match cs with
    | '-' :: rest => rest
    | '+' :: rest => rest
    | _ => cs
  let ir := takeDigits cs1
  let intDs := ir.1
  let fr : List ℕ × List Char := match ir.2 with
    | '.' :: rest => takeDigits rest
    | _ => ([], ir.2)
  let fracDs := fr.1
  if intDs = [] ∧ fracDs = [] then none
  else
    let mantNum : ℕ := digitsToNat intDs * 10 ^ fracDs.length + digitsToNat fracDs
    let mantDen : ℕ := 10 ^ fracDs.length
    let er : Bool × ℕ := match fr.2 with
      | 'e' :: rest => parseExponent rest
      | 'E' :: rest => parseExponent rest
      | _ => (false, 0)
    let n : ℤ := if signNeg then -(mantNum : ℤ) else (mantNum : ℤ)
    if er.1 then some ⟨n, (mantDen : ℤ) * 10 ^ er.2⟩
    else some ⟨n * 10 ^ er.2, (mantDen : ℤ)⟩

/-- Digit character of `n` (callers pass values below 10). -/
def digitChar (n : ℕ) : Char :=
  match n with
  | 0 => '0' | 1 => '1' | 2 => '2' | 3 => '3' | 4 => '4'
  | 5 => '5' | 6 => '6' | 7 => '7' | 8 => '8' | _ => '9'

/-- Fuel-driven decimal digit accumulator (structural recursion so that
it reduces in the kernel; fuel `n + 1` always suffices). -/
def natDigitsAux : ℕ → ℕ → List Char → List Char
  | 0, _, acc => acc
  | fuel + 1, n, acc =>
    if n < 10 then digitChar n :: acc
    else natDigitsAux fuel (n / 10) (digitChar (n % 10) :: acc)

/-- Decimal digit list of a natural number (never empty). -/
def natDigits (n : ℕ) : List Char := natDigitsAux (n + 1) n []

/-- Strip trailing `'0'` characters. -/
def dropTrailingZeros (l : List Char) : List Char :=
  (l.reverse.dropWhile (fun c => c = '0')).reverse

/-- The eight-digit fractional block `fr` (a value below `10 ^ 8`) as
characters, with leading zeros preserved. -/
def fracDigits8 (fr : ℕ) : List Char := (natDigits (100000000 + fr)).drop 1

/-- Model of JavaScript `Number.prototype.toString` on the exact values
the engine produces: sign, integer part, and — when the fractional part
is nonzero — a dot followed by the fractional digits with trailing zeros
stripped.  Faithful on every value `calculate` stores (those have
denominator `10 ^ 8` after rounding, hence a terminating decimal
expansion in the fixed-notation range of the JS algorithm). -/
def ratToString (q : JSNum) : String :=
  let n := q.num.natAbs
  let d := q.den.toNat
  let ip := n / d
  let fr := n % d * 100000000 / d
  String.mk ((if q.num < 0 then ['-'] else []) ++ natDigits ip ++
    (if fr = 0 then [] else '.' :: dropTrailingZeros (fracDigits8 fr)))

/-- The four state fields of the `Calculator` class. -/
structure CalcState where
  currentInput : String
  operator : Option String
  previousInput : Option String
  shouldResetDisplay : Bool
deriving DecidableEq

/-- The state installed by the constructor. -/
def initState : CalcState :=
  { currentInput := "0"
    operator := none
    previousInput := none
    shouldResetDisplay := false }

/-- `clear()`: reset every field to its default. -/
def clear (_ : CalcState) : CalcState :=
  { currentInput := "0"
    operator := none
    previousInput := none
    shouldResetDisplay := false }

/-- `deleteLast()`: drop the final character of `currentInput`
(`slice(0, -1)`), falling back to `"0"` when at most one character is
left. -/
def deleteLast (s : CalcState) : CalcState :=
  if s.currentInput.data.length > 1 then
    { s with currentInput := String.mk s.currentInput.data.dropLast }
  else
    { s with currentInput := "0" }

/-- Model of `String.prototype.includes` for a single character. -/
def containsChar (s : String) (c : Char) : Bool := s.data.contains c

/-- `appendNumber(num)`: the initial `shouldResetDisplay` block of the
source mutates the state before the decimal-point check, so the check
runs against the possibly-cleared input. -/
def appendNumber (num : String) (s : CalcState) : CalcState :=
  let s1 := if s.shouldResetDisplay then
      { s with currentInput := "", shouldResetDisplay := false }
    else s
  if num = "." ∧ containsChar s1.currentInput '.' = true then s1
  else if s1.currentInput = "0" ∧ num ≠ "." then { s1 with currentInput := num }
  else { s1 with currentInput := s1.currentInput ++ num }

/-- `previousInput` run through `parseFloat`; a `null` field behaves like
`parseFloat(null)`, which is `NaN`. -/
def parsePrevious (s : CalcState) : Option JSNum :=
  match s.previousInput with
  | none => none
  | some p => parseFloat p

/-- The successful tail of `calculate`: round the result, store it as
`currentInput`, clear `operator` and `previousInput`, flag the display
for reset. -/
def commitResult (r : JSNum) (s : CalcState) : CalcState :=
  { s with currentInput := ratToString (roundResult r)
           operator := none
           previousInput := none
           shouldResetDisplay := true }

/-- `calculate()`: no-op behind the guard; `"Error"` when an operand
fails to parse (`isNaN`) or on division by zero (the thrown error is
caught inside the method and only `currentInput` is touched); otherwise
commit the rounded result.  An operator outside `+ - * /` hits the
`default: return` arm and leaves the state unchanged. -/
def calculate (s : CalcState) : CalcState :=
  if s.operator = none ∨ s.shouldResetDisplay = true then s
  else
    match parsePrevious s, parseFloat s.currentInput with
    | some prev, some current =>
      match s.operator with
      | some "+" => commitResult (JSNum.add prev current) s
      | some "-" => commitResult (JSNum.sub prev current) s
      | some "*" => commitResult (JSNum.mul prev current) s
      | some "/" =>
        if current.num = 0 then { s with currentInput := "Error" }
        else commitResult (JSNum.div prev current) s
      | _ => s
    | _, _ => { s with currentInput := "Error" }

/-- `appendOperator(op)`: resolve a pending operation first when a second
operand has been typed, then freeze the (possibly updated) current input
as `previousInput`. -/
def appendOperator (op : String) (s : CalcState) : CalcState :=
  let s1 := if s.operator ≠ none ∧ s.shouldResetDisplay = false then calculate s else s
  { s1 with operator := some op
            previousInput := some s1.currentInput
            shouldResetDisplay := true }

/-- Tokens `appendNumber` is invoked with: the digit keys and the decimal
point (`handleKeyPress` forwards exactly `isDigit(key) || key === '.'`). -/
def NumToken (n : String) : Prop :=
  n ∈ ["0", "1", "2", "3", "4", "5", "6", "7", "8", "9", "."]

/-- States reachable from the constructor state through the engine
operations, with `appendNumber` fed the documented token alphabet and
`appendOperator` fed an arbitrary operator string. -/
inductive Reachable : CalcState → Prop where
  | init : Reachable initState
  | num {s n} : NumToken n → Reachable s → Reachable (appendNumber n s)
  | op {s o} : Reachable s → Reachable (appendOperator o s)
  | eq {s} : Reachable s → Reachable (calculate s)
  | clr {s} : Reachable s → Reachable (clear s)
  | del {s} : Reachable s → Reachable (deleteLast s)

theorem mk_ne_empty (c : Char) (l : List Char) : String.mk (c :: l) ≠ "" := by
  intro h
  have hd := congrArg String.data h
  simp at hd

theorem append_ne_empty (a b : String) (hb : b ≠ "") : a ++ b ≠ "" := by
  cases a with
  | mk la =>
    cases b with
    | mk lb =>
      intro h
      have hd := congrArg String.data h
      simp only [String.data] at hd
      rcases List.append_eq_nil.mp hd with ⟨h1, h2⟩
      exact hb (by simp [h2])

theorem natDigitsAux_length (fuel : ℕ) :
    ∀ n acc, acc.length ≤ (natDigitsAux fuel n acc).length := by
  induction fuel with
  | zero => intro n acc; simp [natDigitsAux]
  | succ fuel ih =>
    intro n acc
    unfold natDigitsAux
    split
    · simp
    · exact le_trans (by simp) (ih (n / 10) (digitChar (n % 10) :: acc))

theorem natDigits_ne_nil (n : ℕ) : natDigits n ≠ [] := by
  intro h
  have hl := congrArg List.length h
  unfold natDigits natDigitsAux at hl
  split at hl
  · simp at hl
  · have hle := natDigitsAux_length n (n / 10) (digitChar (n % 10) :: [])
    simp only [List.length_cons, List.length_nil] at hl hle
    omega

theorem ratToString_ne_empty (q : JSNum) : ratToString q ≠ "" := by
  unfold ratToString
  intro h
  have hd := congrArg String.data h
  simp only [String.data] at hd
  rcases List.append_eq_nil.mp hd with ⟨h1, h2⟩
  rcases List.append_eq_nil.mp h1 with ⟨h3, h4⟩
  exact natDigits_ne_nil _ h4

theorem calculate_cases (s : CalcState) :
    calculate s = s ∨ calculate s = { s with currentInput := "Error" } ∨
      ∃ r, calculate s = commitResult r s := by
  unfold calculate
  repeat' split
  all_goals first
    | exact Or.inl rfl
    | exact Or.inr (Or.inl rfl)
    | exact Or.inr (Or.inr ⟨_, rfl⟩)

theorem appendNumber_frame (n : String) (s : CalcState) :
    (appendNumber n s).operator = s.operator ∧
      (appendNumber n s).previousInput = s.previousInput := by
  refine ⟨?_, ?_⟩ <;> simp only [appendNumber] <;> (repeat' split) <;> rfl

theorem deleteLast_frame (s : CalcState) :
    (deleteLast s).operator = s.operator ∧
      (deleteLast s).previousInput = s.previousInput := by
  unfold deleteLast
  split <;> simp

/-- Zero test the division guard performs on a parsed operand
(`current === 0`): true exactly when the operand parsed and its exact
value is zero. -/
def isParsedZero : Option JSNum → Bool
  | some c => c.num == 0
  | none => false

theorem calculate_keeps_currentInput_ne_empty (s : CalcState)
    (h : s.currentInput ≠ "") : (calculate s).currentInput ≠ "" := by
  rcases calculate_cases s with hc | hc | ⟨r, hc⟩ <;> rw [hc]
  · exact h
  · exact (by decide : ("Error" : String) ≠ "")
  · exact ratToString_ne_empty (roundResult r)

theorem NumToken.ne_empty {n : String} (h : NumToken n) : n ≠ "" := by
  simp only [NumToken] at h
  fin_cases h <;> decide

theorem appendNumber_keeps_currentInput_ne_empty (n : String) (s : CalcState)
    (tok : NumToken n) (h : s.currentInput ≠ "") :
    (appendNumber n s).currentInput ≠ "" := by
  have hn : n ≠ "" := tok.ne_empty
  cases hf : s.shouldResetDisplay with
  | true =>
    simp only [appendNumber, hf, eq_self_iff_true, if_true]
    split
    next hcond => exact absurd hcond.2 (by decide)
    next =>
      split
      next hcond => exact absurd hcond.1 (by decide)
      next => exact append_ne_empty _ _ hn
  | false =>
    simp only [appendNumber, hf, Bool.false_eq_true, if_false]
    split
    · exact h
    · split
      · exact hn
      · exact append_ne_empty _ _ hn

theorem deleteLast_keeps_currentInput_ne_empty (s : CalcState) :
    (deleteLast s).currentInput ≠ "" := by
  unfold deleteLast
  split
  · intro he
    have hd := congrArg String.data he
    simp only [String.data] at hd
    have hl := congrArg List.length hd
    simp only [List.length_dropLast, List.length_nil] at hl
    omega
  · exact (by decide : ("0" : String) ≠ "")

theorem appendOperator_keeps_currentInput_ne_empty (o : String) (s : CalcState)
    (h : s.currentInput ≠ "") : (appendOperator o s).currentInput ≠ "" := by
  simp only [appendOperator]
  split
  · exact calculate_keeps_currentInput_ne_empty s h
  · exact h

/-- C1 concerns the IEEE-754 binary64 behaviour of the rounding step; it
is not settled here.  The exact-rational counterpart of its example is
still recorded as a spot check of the embedding: in the exact model the
sequence `0.1`, `+`, `0.2`, `=` displays `"0.3"`. -/
theorem exactModel_point_one_plus_point_two :
    (calculate (appendNumber "2" (appendNumber "." (appendNumber "0"
      (appendOperator "+" (appendNumber "1" (appendNumber "." (appendNumber "0"
        initState)))))))).currentInput = "0.3" := by
  decide

/-- C2: chained binary operations resolve left to right with no
precedence: `appendNumber 5, appendOperator +, appendNumber 3,
appendOperator +, appendNumber 2, calculate` from the default state
leaves `currentInput = "10"`, i.e. `(5 + 3) + 2`, because
`appendOperator` with a pending operator and `shouldResetDisplay` false
first invokes `calculate`. -/
theorem claimC2_chained_operators_left_to_right :
    (calculate (appendNumber "2" (appendOperator "+" (appendNumber "3"
      (appendOperator "+" (appendNumber "5" initState)))))).currentInput = "10" := by
  decide

/-- C3: in every reachable state, `operator` is non-null exactly when
`previousInput` is non-null: `appendOperator` sets both, `calculate`
clears both, and no other operation touches either field. -/
theorem claimC3_operator_iff_previousInput (s : CalcState) (h : Reachable s) :
    (s.operator ≠ none ↔ s.previousInput ≠ none) := by
  have key : ∀ t, Reachable t → (t.operator = none ↔ t.previousInput = none) := by
    intro t ht
    induction ht with
    | init => simp [initState]
    | num tok _ ih =>
      rw [(appendNumber_frame _ _).1, (appendNumber_frame _ _).2]
      exact ih
    | op _ _ => simp [appendOperator]
    | eq _ ih =>
      rcases calculate_cases _ with hc | hc | ⟨r, hc⟩ <;> rw [hc]
      · exact ih
      · exact ih
      · simp [commitResult]
    | clr _ _ => simp [clear]
    | del _ ih =>
      rw [(deleteLast_frame _).1, (deleteLast_frame _).2]
      exact ih
  exact not_iff_not.mpr (key s h)

theorem claimC3_witness :
    (initState.operator ≠ none ↔ initState.previousInput ≠ none) :=
  claimC3_operator_iff_previousInput initState Reachable.init

/-- C4: `calculate` is a no-op when no operator is pending or when
`shouldResetDisplay` is true: the whole state is returned unchanged. -/
theorem claimC4_calculate_noop (s : CalcState)
    (h : s.operator = none ∨ s.shouldResetDisplay = true) :
    calculate s = s := by
  unfold calculate
  rw [if_pos h]

theorem claimC4_witness : calculate initState = initState :=
  claimC4_calculate_noop initState (Or.inl rfl)

/-- C5: `clear` after any reachable state yields exactly the state a
fresh constructor call installs: `currentInput = "0"`, no operator, no
previous input, reset flag down. -/
theorem claimC5_clear_resets_to_default (s : CalcState) (_h : Reachable s) :
    clear s = initState := rfl

theorem claimC5_witness : clear (deleteLast initState) = initState :=
  claimC5_clear_resets_to_default (deleteLast initState) (Reachable.del Reachable.init)

/-- C6: division by zero surfaces as the `"Error"` sentinel, not as an
exception: `8`, `/`, `0`, `=` from the default state sets `currentInput`
to `"Error"` while the operation returns normally with every other field
intact (every engine operation of the embedding is a total function; the
`throw` in the source is caught inside `calculate` itself). -/
theorem claimC6_division_by_zero_error :
    calculate (appendNumber "0" (appendOperator "/" (appendNumber "8" initState))) =
      { currentInput := "Error", operator := some "/", previousInput := some "8",
        shouldResetDisplay := false } := by
  decide

/-- C7: with `shouldResetDisplay` false and a decimal point already in
`currentInput`, `appendNumber "."` leaves the entire state unchanged. -/
theorem claimC7_second_decimal_point_rejected (s : CalcState)
    (h1 : s.shouldResetDisplay = false)
    (h2 : containsChar s.currentInput '.' = true) :
    appendNumber "." s = s := by
  simp [appendNumber, h1, h2]

theorem claimC7_witness :
    appendNumber "." ⟨"1.2", none, none, false⟩ = ⟨"1.2", none, none, false⟩ :=
  claimC7_second_decimal_point_rejected ⟨"1.2", none, none, false⟩ rfl (by decide)

/-- C8: `deleteLast` removes the final character of `currentInput` when
more than one character is present and otherwise resets it to `"0"`; no
other field changes. -/
theorem claimC8_deleteLast_spec (s : CalcState) :
    deleteLast s =
      { s with currentInput :=
          if 1 < s.currentInput.data.length
          then String.mk s.currentInput.data.dropLast else "0" } := by
  unfold deleteLast
  split
  next hgt => rfl
  next hle => rfl

/-- C9: `currentInput` is never the empty string in a reachable state:
it starts as `"0"` and every operation — including `appendNumber`, which
transiently discards the input when `shouldResetDisplay` is true, and
`deleteLast` — returns it non-empty (tokens range over the documented
input alphabet, a digit or the decimal point). -/
theorem claimC9_currentInput_never_empty (s : CalcState) (h : Reachable s) :
    s.currentInput ≠ "" := by
  induction h with
  | init => decide
  | num tok _ ih => exact appendNumber_keeps_currentInput_ne_empty _ _ tok ih
  | op _ ih => exact appendOperator_keeps_currentInput_ne_empty _ _ ih
  | eq _ ih => exact calculate_keeps_currentInput_ne_empty _ ih
  | clr _ _ => exact (by decide : ("0" : String) ≠ "")
  | del _ _ => exact deleteLast_keeps_currentInput_ne_empty _

theorem claimC9_witness : initState.currentInput ≠ "" :=
  claimC9_currentInput_never_empty initState Reachable.init

/-- C10: when `calculate` proceeds past its guard and the computation
fails — an operand does not parse, or the operator is `/` and the second
operand is zero — only `currentInput` changes, to `"Error"`; `operator`,
`previousInput` and `shouldResetDisplay` keep their prior values. -/
theorem claimC10_error_changes_only_currentInput (s : CalcState)
    (h1 : s.operator ≠ none) (h2 : s.shouldResetDisplay = false)
    (h3 : parsePrevious s = none ∨ parseFloat s.currentInput = none ∨
      (s.operator = some "/" ∧ isParsedZero (parseFloat s.currentInput) = true)) :
    calculate s = { s with currentInput := "Error" } := by
  unfold calculate
  rw [if_neg (by simp [h1, h2])]
  rcases hp : parsePrevious s with _ | p <;>
    rcases hc : parseFloat s.currentInput with _ | c
  · rfl
  · rfl
  · rfl
  · rcases h3 with h3 | h3 | ⟨hop, hz⟩
    · rw [hp] at h3
      exact absurd h3 (by simp)
    · rw [hc] at h3
      exact absurd h3 (by simp)
    · rw [hc] at hz
      simp only [isParsedZero, beq_iff_eq] at hz
      rw [hop]
      simp [hz]

theorem claimC10_witness :
    calculate ⟨"0", some "/", some "8", false⟩ = ⟨"Error", some "/", some "8", false⟩ :=
  claimC10_error_changes_only_currentInput ⟨"0", some "/", some "8", false⟩
    (by decide) rfl (Or.inr (Or.inr ⟨rfl, by decide⟩))

end WebCalc
